import Mathlib

/-!
Verification of the MigTD offline verifier tools
(`tools/migtd-igvm-verifier/src/main.rs` and
`tools/migtd-policy-verifier/src/main.rs`).

Bytes are modelled as `Nat` (values below 256 in every real input), byte
buffers as `List Nat`, and page tables as lists of `(gpa, data)` pairs,
mirroring the Rust `Vec<(u64, Vec<u8>)>`.  Machine-integer arithmetic in the
source never overflows on the inputs the claims quantify over, so `Nat` is
used throughout.
-/

namespace MigTD

/-- A page record, as collected from `IgvmDirectiveHeader::PageData`:
the pair of the guest physical address and the raw page bytes. -/
abbrev PageRecord := Nat × List Nat

/-- Insert a page into a list sorted ascending by GPA, after all pages of
strictly smaller GPA and before all pages of greater-or-equal GPA seen so
far.  Together with `sortPages` this realises the stable
`all_pages.sort_by_key(|(gpa, _)| *gpa)` of the source. -/
def insertPage (p : PageRecord) : List PageRecord → List PageRecord
  | [] => [p]
  | q :: qs => if q.1 < p.1 then q :: insertPage p qs else p :: q :: qs

/-- Stable sort of the page list by GPA (`all_pages.sort_by_key`). -/
def sortPages : List PageRecord → List PageRecord
  | [] => []
  | p :: ps => insertPage p (sortPages ps)

/-- Errors of the extraction pipeline.  `noPageData` is the
"No page data found in IGVM file" failure, `cfvNotFound` the
"CFV not found at expected GPA" failure, `fileNotFound` the
"Unable to find file with GUID in CFV" failure. -/
inductive ExtractErr where
  | noPageData
  | cfvNotFound
  | fileNotFound
deriving DecidableEq, Repr

/-- The pages selected by the collection loop: pages of the sorted table
whose GPA lies in `[start, start + len)`
(`*gpa >= start_gpa && *gpa < end_gpa`). -/
def selectPages (pages : List PageRecord) (start len : Nat) : List PageRecord :=
  (sortPages pages).filter (fun p => decide (start ≤ p.1 ∧ p.1 < start + len))

/-- The collection loop body: the selected pages' bytes appended one after
another (`cfv_data.extend_from_slice(data)`). -/
def collectPages (pages : List PageRecord) (start len : Nat) : List Nat :=
  (selectPages pages start len).foldl (fun acc p => acc ++ p.2) []

/-- The padding step: append zero bytes when the collected data is shorter
than the requested size (`cfv_data.extend(std::iter::repeat(0).take(padding))`);
a buffer that is already long enough is left as is. -/
def padToSize (d : List Nat) (len : Nat) : List Nat :=
  if d.length < len then d ++ List.replicate (len - d.length) 0 else d

/-- The Region Reconstructor: the page-collection and padding phase of
`extract_cfv_from_igvm`, before header resolution.  Fails with
`noPageData` when the page table is empty, with `cfvNotFound` when no
non-empty page sits exactly at `start`
(`find(|(gpa, data)| *gpa == CFV_GPA && !data.is_empty())`); otherwise
collects the selected pages and pads to `len`. -/
def reconstructRegion (pages : List PageRecord) (start len : Nat) :
    Except ExtractErr (List Nat) :=
  if pages.isEmpty then .error .noPageData
  else
    match (sortPages pages).find? (fun p => p.1 == start && !p.2.isEmpty) with
    | none => .error .cfvNotFound
    | some _ => .ok (padToSize (collectPages pages start len) len)

/-- The fixed CFV GPA of the source (`const CFV_GPA: u64 = 0x2000000`). -/
def CFV_GPA : Nat := 0x2000000

/-- The firmware-volume header signature bytes `b"_FVH"`. -/
def fvhSig : List Nat := [0x5F, 0x46, 0x56, 0x48]

/-- First index at which the four bytes `fvhSig` occur in the buffer
(`cfv_data.windows(4).position(|w| w == fvh_signature)`). -/
def findSigFrom : List Nat → Option Nat
  | [] => none
  | b :: rest =>
    if (b :: rest).take 4 = fvhSig then some 0
    else (findSigFrom rest).map (· + 1)

/-- The little-endian 64-bit value held by the eight bytes of the buffer
starting at `off` (`u64::from_le_bytes` on `&cfv_data[off..off+8]`);
positions past the end read as zero (the source proves them in bounds
where it reads). -/
def readLe64 (buf : List Nat) (off : Nat) : Nat :=
  buf.getD off 0
    + buf.getD (off + 1) 0 * 256 ^ 1
    + buf.getD (off + 2) 0 * 256 ^ 2
    + buf.getD (off + 3) 0 * 256 ^ 3
    + buf.getD (off + 4) 0 * 256 ^ 4
    + buf.getD (off + 5) 0 * 256 ^ 5
    + buf.getD (off + 6) 0 * 256 ^ 6
    + buf.getD (off + 7) 0 * 256 ^ 7

/-- The Volume Header Resolver: the `_FVH` search and re-slice phase of
`extract_cfv_from_igvm`.  Finds the first signature occurrence `s`; when
`s ≥ 0x28`, reads the `fv_length` field at offset `s - 0x28 + 0x20` and
re-slices to `[fv_start, fv_start + fv_length)` when that fits, or to
`[fv_start, end)` otherwise; in every other case the buffer is returned
unchanged.  The source computes `fv_start + fv_length as usize` in 64-bit
machine arithmetic; this function describes the executions on which that
addition does not overflow (every run that returns normally), and
`resolveFvHeaderRun` below additionally models the overflow panic. -/
def resolveFvHeader (buf : List Nat) : List Nat :=
  match findSigFrom buf with
  | none => buf
  | some s =>
    if 0x28 ≤ s then
      let fv_start := s - 0x28
      if fv_start + 0x28 < buf.length then
        let fv_length := readLe64 buf (fv_start + 0x20)
        if fv_start + fv_length ≤ buf.length then
          (buf.drop fv_start).take fv_length
        else
          buf.drop fv_start
      else buf
    else buf

/-- The Volume Header Resolver with the source's 64-bit `usize` addition
made explicit.  `fv_start + fv_length as usize` overflows exactly when
`fv_start + fv_length ≥ 2 ^ 64` (with `fv_length` a `u64` read from the
buffer); on that input the program panics in both compilation profiles —
a debug build aborts on the checked addition, and a release build wraps
to `fv_start + fv_length - 2 ^ 64 < fv_start`, passes the `≤ len`
comparison, and panics on the inverted slice range
`cfv_data[fv_start..wrapped]`.  `none` is that panic; every `some` result
agrees with `resolveFvHeader`. -/
def resolveFvHeaderRun (buf : List Nat) : Option (List Nat) :=
  match findSigFrom buf with
  | none => some buf
  | some s =>
    if 0x28 ≤ s then
      let fv_start := s - 0x28
      if fv_start + 0x28 < buf.length then
        let fv_length := readLe64 buf (fv_start + 0x20)
        if fv_start + fv_length < 2 ^ 64 then
          if fv_start + fv_length ≤ buf.length then
            some ((buf.drop fv_start).take fv_length)
          else
            some (buf.drop fv_start)
        else none
      else some buf
    else some buf

/-- `extract_cfv_from_igvm`, after IGVM parsing: reconstruct the region at
the fixed `CFV_GPA` and resolve the volume header. -/
def extract_cfv_from_igvm (pages : List PageRecord) (cfv_size : Nat) :
    Except ExtractErr (List Nat) :=
  (reconstructRegion pages CFV_GPA cfv_size).map resolveFvHeader

/-- `FV_FILETYPE_RAW` from `td_shim_interface::td_uefi_pi::pi::fv`
(UEFI PI `EFI_FV_FILETYPE_RAW = 0x01`). -/
def FV_FILETYPE_RAW : Nat := 0x01

/-- The 16 bytes of `MIGTD_POLICY_FFS_GUID`
(`Guid::from_fields(0x0BE92DC3, 0x6221, 0x4C98, 0x87, 0xC1,
&[0x8E, 0xEF, 0xFD, 0x70, 0xDE, 0x5A])`), in the mixed-endian memory
layout `as_bytes` exposes. -/
def MIGTD_POLICY_FFS_GUID : List Nat :=
  [0xC3, 0x2D, 0xE9, 0x0B, 0x21, 0x62, 0x98, 0x4C,
   0x87, 0xC1, 0x8E, 0xEF, 0xFD, 0x70, 0xDE, 0x5A]

/-- The 16 bytes of `MIGTD_POLICY_ISSUER_CHAIN_FFS_GUID`
(`Guid::from_fields(0x3F2FB27A, 0x9596, 0x431C, 0xA6, 0x8D,
&[0xD3, 0xEA, 0xB3, 0x9F, 0x8A, 0xEB])`). -/
def MIGTD_POLICY_ISSUER_CHAIN_FFS_GUID : List Nat :=
  [0x7A, 0xB2, 0x2F, 0x3F, 0x96, 0x95, 0x1C, 0x43,
   0xA6, 0x8D, 0xD3, 0xEA, 0xB3, 0x9F, 0x8A, 0xEB]

/-- A file record of a firmware volume: type tag, 128-bit identifier
(16 bytes) and payload. -/
structure FfsFile where
  ftype : Nat
  guid : List Nat
  payload : List Nat
deriving DecidableEq, Repr

/-- Modelled from the spec: `td_shim_interface::td_uefi_pi::fv::get_file_from_fv`
is not part of this repository's sources; per §4.4 it "scans volume file
records in file-table order (format-defined, not GPA order) and returns
the payload of the first record whose type tag and identifier both match",
and yields nothing when no record matches.  The volume is taken as its
list of file records in file-table order. -/
def get_file_from_fv (files : List FfsFile) (ftype : Nat) (guid : List Nat) :
    Option (List Nat) :=
  (files.find? (fun f => f.ftype == ftype && f.guid == guid)).map FfsFile.payload

/-- `extract_file_from_cfv`: look the file up by GUID with the RAW type tag
and fail with `fileNotFound` when the lookup yields nothing
(`ok_or_else(|| anyhow!("Unable to find file with GUID in CFV"))`). -/
def extract_file_from_cfv (files : List FfsFile) (guid : List Nat) :
    Except ExtractErr (List Nat) :=
  match get_file_from_fv files FV_FILETYPE_RAW guid with
  | none => .error .fileNotFound
  | some d => .ok d

/-! ## The two CLI `main` functions

`main` of each tool is embedded as a pure function from the outcomes of its
external collaborators (file reads and JSON parses, the IGVM parser, the
firmware-volume parser, and the policy library's `deserialize_from_json`,
`verify`, collateral accessors and `pem_cert_to_der`) to the process exit
code: `Ok(())` from a Rust `main` exits with 0, `Err(_)` with 1, and the
absent-FMSPC branch calls `std::process::exit(2)`.  The IGVM tool's `main`
additionally returns the sequence of policy-library calls it made, in
order, so that data flow between the stages can be stated. -/

/-- A call of the IGVM verifier's `main` into the policy library:
`RawPolicyData::deserialize_from_json` on the policy payload,
`RawPolicyData::verify` of a document against issuer-chain bytes, or
`crypto::pem_cert_to_der` on a root certificate. -/
inductive PipelineEvent (P : Type) where
  | deserializeEv : List Nat → PipelineEvent P
  | verifyEv : P → List Nat → PipelineEvent P
  | pemToDerEv : List Nat → PipelineEvent P
deriving DecidableEq

/-- `main` of `migtd-igvm-verifier`, over abstract collaborators.
`config` is the outcome of reading and parsing the two JSON files and the
hex `Config` size (any failure there makes `main` return `Err`);
`pages` the outcome of reading and parsing the IGVM file into its page
directives; `getFile` the firmware-volume file lookup on the extracted
CFV bytes; `deserialize`, `verify`, `getRootCa`, `pemToDer` and
`hasFmspc` the policy-library calls; `fmspc` the optional `--fmspc`
argument.  Returns the exit code and the trace of policy-library calls. -/
def mainIgvm {P V : Type}
    (config : Except Unit Nat)
    (pages : Except Unit (List PageRecord))
    (getFile : List Nat → List Nat → Except Unit (List Nat))
    (deserialize : List Nat → Except Unit P)
    (verify : P → List Nat → Except Unit V)
    (getRootCa : V → List Nat)
    (pemToDer : List Nat → Except Unit (List Nat))
    (hasFmspc : V → List Nat → Bool)
    (fmspc : Option (List Nat)) : Nat × List (PipelineEvent P) :=
  match config with
  | .error _ => (1, [])
  | .ok cfv_size =>
    match pages with
    | .error _ => (1, [])
    | .ok pgs =>
      match extract_cfv_from_igvm pgs cfv_size with
      | .error _ => (1, [])
      | .ok cfv_data =>
        match getFile cfv_data MIGTD_POLICY_FFS_GUID with
        | .error _ => (1, [])
        | .ok policy_data =>
          match getFile cfv_data MIGTD_POLICY_ISSUER_CHAIN_FFS_GUID with
          | .error _ => (1, [])
          | .ok issuer_chain_data =>
            match deserialize policy_data with
            | .error _ => (1, [.deserializeEv policy_data])
            | .ok raw_policy =>
              match verify raw_policy issuer_chain_data with
              | .error _ =>
                (1, [.deserializeEv policy_data,
                     .verifyEv raw_policy issuer_chain_data])
              | .ok verified_policy =>
                let t : List (PipelineEvent P) :=
                  [.deserializeEv policy_data,
                   .verifyEv raw_policy issuer_chain_data,
                   .pemToDerEv (getRootCa verified_policy)]
                match pemToDer (getRootCa verified_policy) with
                | .error _ => (1, t)
                | .ok _ =>
                  ((match fmspc with
                    | none => 0
                    | some f => if hasFmspc verified_policy f then 0 else 2), t)

/-- `main` of `migtd-policy-verifier`, over abstract collaborators:
`policyBytes` and `chainBytes` are the two file reads, `deserialize` and
`verify` the policy-library calls, `containsKey` the collateral lookup,
`fmspc` the optional `--fmspc` argument.  Returns the exit code. -/
def mainPolicy {P V : Type}
    (policyBytes : Except Unit (List Nat))
    (chainBytes : Except Unit (List Nat))
    (deserialize : List Nat → Except Unit P)
    (verify : P → List Nat → Except Unit V)
    (containsKey : V → List Nat → Bool)
    (fmspc : Option (List Nat)) : Nat :=
  match policyBytes with
  | .error _ => 1
  | .ok pb =>
    match chainBytes with
    | .error _ => 1
    | .ok cb =>
      match deserialize pb with
      | .error _ => 1
      | .ok doc =>
        match verify doc cb with
        | .error _ => 1
        | .ok vp =>
          match fmspc with
          | none => 0
          | some f => if containsKey vp f then 0 else 2

/-! ## Helper lemmas -/

theorem findSigFrom_le (buf : List Nat) (s : Nat) (h : findSigFrom buf = some s) :
    s + 4 ≤ buf.length := by
  induction buf generalizing s with
  | nil => simp [findSigFrom] at h
  | cons b rest ih =>
    rw [findSigFrom] at h
    split at h
    · rename_i htake
      have h4 : ((b :: rest).take 4).length = 4 := by rw [htake]; rfl
      rw [List.length_take] at h4
      have h5 : (4 : Nat) ≤ (b :: rest).length := h4 ▸ Nat.min_le_right 4 _
      have h0 : s = 0 := by simpa using h.symm
      omega
    · cases hr : findSigFrom rest with
      | none => rw [hr] at h; simp at h
      | some t =>
        rw [hr] at h
        simp only [Option.map_some', Option.some.injEq] at h
        have := ih t hr
        simp only [List.length_cons]
        omega

/-- A sample reconstructed buffer: 32 arbitrary bytes, the volume length
field `0x2C = 44` in little-endian at offset `0x20`, and the `_FVH`
signature at offset `0x28`; 44 bytes in total. -/
def sampleFv : List Nat :=
  List.replicate 32 0 ++ [44, 0, 0, 0, 0, 0, 0, 0] ++ fvhSig

/-- An adversarial reconstructed buffer: 33 zero bytes, then the declared
length field set to `0xFFFFFFFFFFFFFFFF`, then the `_FVH` signature, so
the first signature occurrence is at offset `0x29`, the header starts at
`fv_start = 1`, and `fv_start + fv_length = 2 ^ 64` overflows the
source's `usize` addition; 45 bytes in total. -/
def badFv : List Nat :=
  List.replicate 33 0 ++ List.replicate 8 0xFF ++ fvhSig

/-! ## Claims C10, C4, C5: the Volume Header Resolver -/

/-- C10: whenever the signature is found at offset `s ≥ 0x28`, every
subsequent access of the resolver is in bounds: the guard `s <` buffer
length holds, the 8-byte length-field slice ends exactly at `s` and so
lies within the buffer, and both re-slices start below the buffer
length. -/
theorem resolver_reads_in_bounds (buf : List Nat) (s : Nat)
    (h : findSigFrom buf = some s) :
    s + 4 ≤ buf.length ∧
    (0x28 ≤ s →
      (s - 0x28) + 0x28 < buf.length ∧
      (s - 0x28) + 0x20 + 8 = s ∧
      (s - 0x28) + 0x20 + 8 ≤ buf.length ∧
      s - 0x28 < buf.length) := by
  have h1 := findSigFrom_le buf s h
  exact ⟨h1, fun hs => by omega⟩

/-- C10 witness: the bounds facts at the concrete buffer `sampleFv`,
whose first signature occurrence is at offset `0x28`. -/
theorem resolver_reads_in_bounds_witness :
    (0x28 - 0x28) + 0x20 + 8 ≤ sampleFv.length ∧ 0x28 - 0x28 < sampleFv.length :=
  ⟨(((resolver_reads_in_bounds sampleFv 0x28 (by decide)).2 (by decide)).2.2).1,
   (((resolver_reads_in_bounds sampleFv 0x28 (by decide)).2 (by decide)).2.2).2⟩

/-- Every normally-returning run of the resolver computes
`resolveFvHeader`: the panic-aware model refines the unbounded one. -/
theorem resolveFvHeaderRun_refines (buf : List Nat) :
    resolveFvHeaderRun buf = none ∨
    resolveFvHeaderRun buf = some (resolveFvHeader buf) := by
  cases h : findSigFrom buf with
  | none => right; simp [resolveFvHeaderRun, resolveFvHeader, h]
  | some s =>
    by_cases hs : 0x28 ≤ s
    · have hseq : s - 0x28 + 0x28 = s := by omega
      by_cases hg : s < buf.length
      · by_cases hof : s - 0x28 + readLe64 buf (s - 0x28 + 0x20) < 2 ^ 64
        · right
          have hof2 : s - 0x28 + readLe64 buf (s - 0x28 + 0x20) <
              18446744073709551616 := by omega
          simp [resolveFvHeaderRun, resolveFvHeader, h, hs, hseq, hg, hof2,
            apply_ite]
          split <;> omega
        · left
          have hof2 : ¬ s - 0x28 + readLe64 buf (s - 0x28 + 0x20) <
              18446744073709551616 := by omega
          simp [resolveFvHeaderRun, h, hs, hseq, hg, hof2]
      · right
        simp [resolveFvHeaderRun, resolveFvHeader, h, hs, hseq, hg]
    · right
      simp [resolveFvHeaderRun, resolveFvHeader, h, hs]

/-- C4 counterexample: on `badFv` the signature is first found at
`s = 0x29 ≥ 0x28` and the declared length makes `h + declaredLen` exceed
the buffer length, so the claim asserts the output is the slice
`[h, end)`; the program instead panics on the overflowing `usize`
addition (`h + declaredLen = 2 ^ 64`). -/
theorem resolveFvHeader_overflow_counterexample :
    findSigFrom badFv = some 0x29 ∧
    badFv.length < 0x29 - 0x28 + readLe64 badFv (0x29 - 0x28 + 0x20) ∧
    resolveFvHeaderRun badFv = none := by
  exact ⟨by decide, by decide, by decide⟩

/-- C4 amended: the resolver's outcome is determined by the case analysis
on the first signature occurrence `s`: absent signature or `s < 0x28`
leaves the buffer unchanged; otherwise, with `h = s - 0x28` and the
declared length read at `h + 0x20`, provided `h + declaredLen` does not
overflow the 64-bit `usize` addition, the output is the slice
`[h, h + declaredLen)` when that fits and the slice `[h, end)` when it
does not; when the addition overflows (`h + declaredLen ≥ 2 ^ 64`) the
program panics instead of producing a buffer. -/
theorem resolveFvHeaderRun_cases (buf : List Nat) :
    (findSigFrom buf = none → resolveFvHeaderRun buf = some buf)
    ∧ (∀ s, findSigFrom buf = some s → s < 0x28 → resolveFvHeaderRun buf = some buf)
    ∧ (∀ s, findSigFrom buf = some s → 0x28 ≤ s →
        (s - 0x28 + readLe64 buf (s - 0x28 + 0x20) < 2 ^ 64 →
          (s - 0x28 + readLe64 buf (s - 0x28 + 0x20) ≤ buf.length →
            resolveFvHeaderRun buf =
              some ((buf.drop (s - 0x28)).take (readLe64 buf (s - 0x28 + 0x20))))
          ∧ (buf.length < s - 0x28 + readLe64 buf (s - 0x28 + 0x20) →
            resolveFvHeaderRun buf = some (buf.drop (s - 0x28))))
        ∧ (2 ^ 64 ≤ s - 0x28 + readLe64 buf (s - 0x28 + 0x20) →
          resolveFvHeaderRun buf = none)) := by
  refine ⟨?_, ?_, ?_⟩
  · intro h; simp [resolveFvHeaderRun, h]
  · intro s h hs
    simp [resolveFvHeaderRun, h, Nat.not_le.mpr hs]
  · intro s h hs
    have h1 := findSigFrom_le buf s h
    have hguard : s - 0x28 + 0x28 < buf.length := by omega
    have hsl : s < buf.length := by omega
    refine ⟨fun hnof => ⟨fun hfit => ?_, fun hover => ?_⟩, fun hof => ?_⟩
    · have hnof2 : s - 0x28 + readLe64 buf (s - 0x28 + 0x20) <
          18446744073709551616 := by omega
      simp [resolveFvHeaderRun, h, hs, hguard, hsl, hnof2, hfit]
    · have hnof2 : s - 0x28 + readLe64 buf (s - 0x28 + 0x20) <
          18446744073709551616 := by omega
      simp [resolveFvHeaderRun, h, hs, hguard, hsl, hnof2, Nat.not_le.mpr hover]
    · have hof2 : ¬ s - 0x28 + readLe64 buf (s - 0x28 + 0x20) <
          18446744073709551616 := by omega
      simp [resolveFvHeaderRun, h, hs, hguard, hsl, hof2]

/-- C4 amended, witness: the fitting re-slice case at the concrete buffer
`sampleFv` (signature at `0x28`, declared length 44 = buffer length, no
overflow). -/
theorem resolveFvHeaderRun_cases_witness :
    resolveFvHeaderRun sampleFv =
      some ((sampleFv.drop (0x28 - 0x28)).take
        (readLe64 sampleFv (0x28 - 0x28 + 0x20))) :=
  ((((resolveFvHeaderRun_cases sampleFv).2.2 0x28 (by decide) (by decide)).1
      (by decide)).1 (by decide))

/-- C5: the resolver is idempotent on an already-correctly-sliced buffer:
if the first signature occurrence is at offset exactly `0x28` (header
start 0) and the declared length field at offset `0x20` equals the buffer
length, resolving returns the buffer unchanged. -/
theorem resolveFvHeader_idem (buf : List Nat)
    (hsig : findSigFrom buf = some 0x28)
    (hlen : readLe64 buf 0x20 = buf.length) :
    resolveFvHeader buf = buf := by
  have h1 := findSigFrom_le buf 0x28 hsig
  have h40 : 0x28 < buf.length := by omega
  simp [resolveFvHeader, hsig, hlen, h40]

/-- C5 witness: resolving the concrete already-correctly-sliced buffer
`sampleFv` returns it unchanged. -/
theorem resolveFvHeader_idem_witness : resolveFvHeader sampleFv = sampleFv :=
  resolveFvHeader_idem sampleFv (by decide) (by decide)

/-! ## Helper lemmas on the page sort and the padding step -/

theorem mem_insertPage (p q : PageRecord) (l : List PageRecord) :
    q ∈ insertPage p l ↔ q = p ∨ q ∈ l := by
  induction l with
  | nil => simp [insertPage]
  | cons r rs ih =>
    rw [insertPage]
    split
    · rw [List.mem_cons, ih, List.mem_cons]; tauto
    · rw [List.mem_cons, List.mem_cons]

theorem mem_sortPages (q : PageRecord) (l : List PageRecord) :
    q ∈ sortPages l ↔ q ∈ l := by
  induction l with
  | nil => simp [sortPages]
  | cons p ps ih => rw [sortPages, mem_insertPage, ih]; simp

theorem pairwise_insertPage (p : PageRecord) (l : List PageRecord)
    (h : l.Pairwise (fun a b => a.1 ≤ b.1)) :
    (insertPage p l).Pairwise (fun a b => a.1 ≤ b.1) := by
  induction l with
  | nil => simp [insertPage]
  | cons r rs ih =>
    rw [insertPage]
    rw [List.pairwise_cons] at h
    obtain ⟨hr, hrs⟩ := h
    split
    · rename_i hlt
      rw [List.pairwise_cons]
      refine ⟨fun b hb => ?_, ih hrs⟩
      rcases (mem_insertPage p b rs).1 hb with rfl | hb
      · exact Nat.le_of_lt hlt
      · exact hr b hb
    · rename_i hge
      rw [List.pairwise_cons]
      refine ⟨fun b hb => ?_, List.pairwise_cons.2 ⟨hr, hrs⟩⟩
      rcases List.mem_cons.1 hb with rfl | hb
      · exact Nat.le_of_not_lt hge
      · exact Nat.le_trans (Nat.le_of_not_lt hge) (hr b hb)

theorem sortPages_pairwise (l : List PageRecord) :
    (sortPages l).Pairwise (fun a b => a.1 ≤ b.1) := by
  induction l with
  | nil => simp [sortPages]
  | cons p ps ih => exact pairwise_insertPage p _ ih

theorem foldl_append_eq (l : List PageRecord) (a : List Nat) :
    l.foldl (fun acc p => acc ++ p.2) a = a ++ (l.map Prod.snd).flatten := by
  induction l generalizing a with
  | nil => simp
  | cons p ps ih => simp [List.foldl_cons, ih]

theorem collectPages_eq (pages : List PageRecord) (start len : Nat) :
    collectPages pages start len = ((selectPages pages start len).map Prod.snd).flatten := by
  unfold collectPages
  rw [foldl_append_eq]
  simp

theorem padToSize_eq (d : List Nat) (len : Nat) :
    padToSize d len = d ++ List.replicate (len - d.length) 0 := by
  unfold padToSize
  split
  · rfl
  · rename_i h
    rw [Nat.sub_eq_zero_of_le (Nat.le_of_not_lt h)]
    simp

theorem padToSize_length (d : List Nat) (len : Nat) :
    (padToSize d len).length = max len d.length := by
  unfold padToSize
  split
  · rename_i h
    simp only [List.length_append, List.length_replicate]
    omega
  · rename_i h
    omega

theorem reconstructRegion_ok (pages : List PageRecord) (start len : Nat)
    (out : List Nat) (h : reconstructRegion pages start len = .ok out) :
    out = padToSize (collectPages pages start len) len := by
  unfold reconstructRegion at h
  split at h
  · exact absurd h (by simp)
  · split at h
    · exact absurd h (by simp)
    · simpa using h.symm

/-! ## Claims C1, C2, C3, C9: the Region Reconstructor -/

/-- C1 counterexample: a page table with a (non-empty) page exactly at the
target start GPA whose pages carry more total bytes than the requested
length; the reconstruction returns 2 bytes although 1 was requested. -/
theorem reconstruct_length_counterexample :
    reconstructRegion [(CFV_GPA, [0, 0])] CFV_GPA 1 = .ok [0, 0] ∧
    ([0, 0] : List Nat).length ≠ 1 := by
  exact ⟨rfl, by decide⟩

/-- C1 amended: the reconstructed buffer has `max len total` bytes, where
`total` is the number of bytes carried by the selected pages; in
particular it has exactly `len` bytes whenever `total ≤ len`. -/
theorem reconstruct_length (pages : List PageRecord) (start len : Nat)
    (out : List Nat) (h : reconstructRegion pages start len = .ok out) :
    out.length = max len (collectPages pages start len).length ∧
    ((collectPages pages start len).length ≤ len → out.length = len) := by
  rw [reconstructRegion_ok pages start len out h]
  rw [padToSize_length]
  exact ⟨rfl, fun hle => by omega⟩

/-- C1 amended, witness at a concrete input: one 1-byte page at the start
GPA, 4 bytes requested, so the output has `max 4 1 = 4` bytes. -/
theorem reconstruct_length_witness :
    ([0, 0, 0, 0] : List Nat).length =
      max 4 (collectPages [(CFV_GPA, [0])] CFV_GPA 4).length :=
  (reconstruct_length [(CFV_GPA, [0])] CFV_GPA 4 [0, 0, 0, 0] rfl).1

/-- C2 counterexample: pages at `CFV_GPA` (1 byte `1`) and `CFV_GPA + 2`
(1 byte `2`), 4 bytes requested.  The claim places byte `2` at output
offset 2 and zero at the uncovered offset 1; the code instead produces
`[1, 2, 0, 0]`. -/
theorem reconstruct_placement_counterexample :
    reconstructRegion [(CFV_GPA, [1]), (CFV_GPA + 2, [2])] CFV_GPA 4 =
      .ok [1, 2, 0, 0] ∧
    ([1, 2, 0, 0] : List Nat).getD 2 0 ≠ 2 ∧
    ([1, 2, 0, 0] : List Nat).getD 1 0 ≠ 0 := by
  exact ⟨rfl, by decide, by decide⟩

/-- C2 amended: the output is the concatenation of the selected pages'
bytes, taken in ascending-GPA order (the selection is sorted by GPA),
followed by zero bytes up to the requested length; gaps between pages are
not zero-filled in place and do not separate the pages' bytes. -/
theorem reconstruct_concat (pages : List PageRecord) (start len : Nat)
    (out : List Nat) (h : reconstructRegion pages start len = .ok out) :
    (selectPages pages start len).Pairwise (fun a b => a.1 ≤ b.1) ∧
    out = ((selectPages pages start len).map Prod.snd).flatten
          ++ List.replicate
              (len - (((selectPages pages start len).map Prod.snd).flatten).length) 0 := by
  constructor
  · exact List.Pairwise.sublist (List.filter_sublist _) (sortPages_pairwise pages)
  · rw [reconstructRegion_ok pages start len out h, padToSize_eq, collectPages_eq]

/-- C2 amended, witness at the concrete gap input. -/
theorem reconstruct_concat_witness :
    ([1, 2, 0, 0] : List Nat) =
      ((selectPages [(CFV_GPA, [1]), (CFV_GPA + 2, [2])] CFV_GPA 4).map Prod.snd).flatten
      ++ List.replicate
          (4 - (((selectPages [(CFV_GPA, [1]), (CFV_GPA + 2, [2])] CFV_GPA 4).map
              Prod.snd).flatten).length) 0 :=
  (reconstruct_concat [(CFV_GPA, [1]), (CFV_GPA + 2, [2])] CFV_GPA 4 [1, 2, 0, 0]
    rfl).2

/-- C3 counterexample: a page table whose only record sits exactly at the
start GPA but carries no bytes; a page record at `start` exists, yet the
reconstruction fails with the not-found error. -/
theorem reconstruct_notfound_counterexample :
    (CFV_GPA, ([] : List Nat)) ∈ [((CFV_GPA : Nat), ([] : List Nat))] ∧
    (CFV_GPA, ([] : List Nat)).1 = CFV_GPA ∧
    reconstructRegion [(CFV_GPA, [])] CFV_GPA 0x1000 = .error .cfvNotFound := by
  exact ⟨by simp, rfl, rfl⟩

/-- C3 amended: the reconstruction succeeds if and only if some page
record with non-empty data sits exactly at the start GPA; it fails
otherwise (with the no-page-data error on an empty table, with the
not-found error otherwise). -/
theorem reconstruct_notfound_iff (pages : List PageRecord) (start len : Nat) :
    (∃ out, reconstructRegion pages start len = Except.ok out) ↔
    ∃ p ∈ pages, p.1 = start ∧ p.2 ≠ [] := by
  unfold reconstructRegion
  by_cases hemp : pages.isEmpty
  · rw [List.isEmpty_iff] at hemp
    subst hemp
    simp
  · rw [if_neg (by simpa using hemp)]
    cases hf : (sortPages pages).find? (fun p => p.1 == start && !p.2.isEmpty) with
    | none =>
      simp only [hf]
      constructor
      · rintro ⟨out, hout⟩
        exact absurd hout (by simp)
      · rintro ⟨p, hp, hps, hpne⟩
        have hnp := List.find?_eq_none.1 hf p ((mem_sortPages p pages).2 hp)
        exact absurd (by simp [hps, hpne]) hnp
    | some q =>
      simp only [hf]
      constructor
      · intro _
        have hq := List.find?_some hf
        have hqm := (mem_sortPages q pages).1 (List.mem_of_find?_eq_some hf)
        rw [Bool.and_eq_true, beq_iff_eq, Bool.not_eq_true'] at hq
        refine ⟨q, hqm, hq.1, fun hnil => ?_⟩
        rw [hnil] at hq
        exact absurd hq.2 (by simp)
      · intro _
        exact ⟨_, rfl⟩

/-- C3 amended, witness at a concrete input: a single non-empty page at
the start GPA makes the reconstruction succeed. -/
theorem reconstruct_notfound_iff_witness :
    ∃ out, reconstructRegion [(CFV_GPA, [9])] CFV_GPA 2 = Except.ok out :=
  (reconstruct_notfound_iff [(CFV_GPA, [9])] CFV_GPA 2).2
    ⟨(CFV_GPA, [9]), by simp, rfl, by simp⟩

/-- C9 counterexample: two page records share the start GPA; the output
begins with the first-inserted record's byte `1`, not the last-inserted
record's byte `2`, because both records' bytes are concatenated. -/
theorem reconstruct_duplicate_counterexample :
    reconstructRegion [(CFV_GPA, [1]), (CFV_GPA, [2])] CFV_GPA 2 = .ok [1, 2] ∧
    ([1, 2] : List Nat).getD 0 0 ≠ 2 := by
  exact ⟨rfl, by decide⟩

/-- C9 amended: when two page records share the same GPA within the target
range, the reconstruction concatenates both records' bytes in insertion
order (the sort is stable) and pads the result, rather than keeping only
the last-inserted record. -/
theorem reconstruct_duplicate (g : Nat) (d1 d2 : List Nat) (len : Nat)
    (h1 : d1 ≠ []) (hlen : 0 < len) :
    reconstructRegion [(g, d1), (g, d2)] g len = .ok (padToSize (d1 ++ d2) len) := by
  have hsort : sortPages [(g, d1), (g, d2)] = [(g, d1), (g, d2)] := by
    simp [sortPages, insertPage]
  have hfind : List.find? (fun p => p.1 == g && !p.2.isEmpty) [(g, d1), (g, d2)] =
      some (g, d1) := by
    rw [List.find?_cons_of_pos]
    simp [h1]
  have hsel : selectPages [(g, d1), (g, d2)] g len = [(g, d1), (g, d2)] := by
    unfold selectPages
    rw [hsort, List.filter_eq_self]
    intro p hp
    rcases List.mem_cons.1 hp with rfl | hp
    · simp; omega
    · rcases List.mem_cons.1 hp with rfl | hp
      · simp; omega
      · exact absurd hp (List.not_mem_nil p)
  have hcoll : collectPages [(g, d1), (g, d2)] g len = d1 ++ d2 := by
    unfold collectPages
    rw [hsel]
    simp
  unfold reconstructRegion
  rw [if_neg (by simp), hsort, hfind, hcoll]

/-- C9 amended, witness at a concrete input. -/
theorem reconstruct_duplicate_witness :
    reconstructRegion [(CFV_GPA, [5]), (CFV_GPA, [6])] CFV_GPA 3 =
      .ok (padToSize ([5] ++ [6]) 3) :=
  reconstruct_duplicate CFV_GPA [5] [6] 3 (by simp) (by omega)

/-! ## Claim C6: the Keyed File Extractor -/

/-- The extractor's outcome when the file-table scan finds nothing. -/
theorem extract_file_eq_none (files : List FfsFile) (guid : List Nat)
    (hf : files.find? (fun f => f.ftype == FV_FILETYPE_RAW && f.guid == guid) = none) :
    extract_file_from_cfv files guid = Except.error .fileNotFound := by
  unfold extract_file_from_cfv get_file_from_fv
  rw [hf]
  rfl

/-- The extractor's outcome when the file-table scan finds a record. -/
theorem extract_file_eq_some (files : List FfsFile) (guid : List Nat) (f : FfsFile)
    (hf : files.find? (fun f => f.ftype == FV_FILETYPE_RAW && f.guid == guid) = some f) :
    extract_file_from_cfv files guid = Except.ok f.payload := by
  unfold extract_file_from_cfv get_file_from_fv
  rw [hf]
  rfl

/-- C6: the extractor succeeds exactly when some record carries the RAW
type tag and the requested identifier; it fails with the not-found error
exactly when none does; when the file-table scan finds a first matching
record it returns that record's payload; and every returned payload
belongs to some record whose identifier equals the request (never a
record with a different identifier). -/
theorem extract_file_contract (files : List FfsFile) (guid : List Nat) :
    ((∃ out, extract_file_from_cfv files guid = Except.ok out) ↔
      ∃ f ∈ files, f.ftype = FV_FILETYPE_RAW ∧ f.guid = guid)
    ∧ (extract_file_from_cfv files guid = Except.error .fileNotFound ↔
      ¬ ∃ f ∈ files, f.ftype = FV_FILETYPE_RAW ∧ f.guid = guid)
    ∧ (∀ f, files.find? (fun f => f.ftype == FV_FILETYPE_RAW && f.guid == guid) =
          some f →
        extract_file_from_cfv files guid = Except.ok f.payload)
    ∧ (∀ out, extract_file_from_cfv files guid = Except.ok out →
        ∃ f ∈ files, f.guid = guid ∧ f.ftype = FV_FILETYPE_RAW ∧ f.payload = out) := by
  refine ⟨?_, ?_, ?_, ?_⟩
  · constructor
    · rintro ⟨out, hout⟩
      cases hf : files.find? (fun f => f.ftype == FV_FILETYPE_RAW && f.guid == guid) with
      | none =>
        rw [extract_file_eq_none files guid hf] at hout
        exact absurd hout (by simp)
      | some f =>
        have hp := List.find?_some hf
        rw [Bool.and_eq_true, beq_iff_eq, beq_iff_eq] at hp
        exact ⟨f, List.mem_of_find?_eq_some hf, hp.1, hp.2⟩
    · rintro ⟨f, hfm, hft, hfg⟩
      cases hf : files.find? (fun f => f.ftype == FV_FILETYPE_RAW && f.guid == guid) with
      | none =>
        have hnp := List.find?_eq_none.1 hf f hfm
        exact absurd (by simp [hft, hfg]) hnp
      | some g => exact ⟨g.payload, extract_file_eq_some files guid g hf⟩
  · constructor
    · intro h
      rintro ⟨f, hfm, hft, hfg⟩
      cases hf : files.find? (fun f => f.ftype == FV_FILETYPE_RAW && f.guid == guid) with
      | none =>
        have hnp := List.find?_eq_none.1 hf f hfm
        exact absurd (by simp [hft, hfg]) hnp
      | some g =>
        rw [extract_file_eq_some files guid g hf] at h
        exact absurd h (by simp)
    · intro h
      cases hf : files.find? (fun f => f.ftype == FV_FILETYPE_RAW && f.guid == guid) with
      | none => exact extract_file_eq_none files guid hf
      | some g =>
        have hp := List.find?_some hf
        rw [Bool.and_eq_true, beq_iff_eq, beq_iff_eq] at hp
        exact absurd ⟨g, List.mem_of_find?_eq_some hf, hp.1, hp.2⟩ h
  · intro f hf
    exact extract_file_eq_some files guid f hf
  · intro out hout
    cases hf : files.find? (fun f => f.ftype == FV_FILETYPE_RAW && f.guid == guid) with
    | none =>
      rw [extract_file_eq_none files guid hf] at hout
      exact absurd hout (by simp)
    | some f =>
      rw [extract_file_eq_some files guid f hf] at hout
      have hp := List.find?_some hf
      rw [Bool.and_eq_true, beq_iff_eq, beq_iff_eq] at hp
      refine ⟨f, List.mem_of_find?_eq_some hf, hp.2, hp.1, ?_⟩
      simpa using hout

/-- C6 witness: a concrete one-record volume holding the policy file. -/
theorem extract_file_contract_witness :
    extract_file_from_cfv [⟨FV_FILETYPE_RAW, MIGTD_POLICY_FFS_GUID, [7]⟩]
      MIGTD_POLICY_FFS_GUID = Except.ok [7] :=
  (extract_file_contract [⟨FV_FILETYPE_RAW, MIGTD_POLICY_FFS_GUID, [7]⟩]
      MIGTD_POLICY_FFS_GUID).2.2.1
    ⟨FV_FILETYPE_RAW, MIGTD_POLICY_FFS_GUID, [7]⟩ (by decide)

/-! ## Claims C7, C8: the two `main` functions -/

/-- Every stage of the IGVM verifier pipeline succeeds. -/
def IgvmSuccess {P V : Type}
    (config : Except Unit Nat) (pages : Except Unit (List PageRecord))
    (getFile : List Nat → List Nat → Except Unit (List Nat))
    (deserialize : List Nat → Except Unit P)
    (verify : P → List Nat → Except Unit V)
    (getRootCa : V → List Nat)
    (pemToDer : List Nat → Except Unit (List Nat)) : Prop :=
  ∃ sz pgs cfv pd cd doc vp der,
    config = .ok sz ∧ pages = .ok pgs ∧
    extract_cfv_from_igvm pgs sz = .ok cfv ∧
    getFile cfv MIGTD_POLICY_FFS_GUID = .ok pd ∧
    getFile cfv MIGTD_POLICY_ISSUER_CHAIN_FFS_GUID = .ok cd ∧
    deserialize pd = .ok doc ∧
    verify doc cd = .ok vp ∧
    pemToDer (getRootCa vp) = .ok der

/-- Every stage of the standalone policy verifier succeeds. -/
def PolicySuccess {P V : Type}
    (policyBytes chainBytes : Except Unit (List Nat))
    (deserialize : List Nat → Except Unit P)
    (verify : P → List Nat → Except Unit V) : Prop :=
  ∃ pb cb doc vp,
    policyBytes = .ok pb ∧ chainBytes = .ok cb ∧
    deserialize pb = .ok doc ∧ verify doc cb = .ok vp

/-- C7: for both CLI tools, the exit code is 0 when every stage succeeds
and the platform-identifier filter is absent or passes; it is exactly 2
when every stage succeeds but the requested identifier is absent from the
collateral set (no error is raised for the absence); and it is 1 (non
zero) whenever any stage fails. -/
theorem cli_exit_codes {P V : Type}
    (config : Except Unit Nat) (pages : Except Unit (List PageRecord))
    (getFile : List Nat → List Nat → Except Unit (List Nat))
    (deserialize : List Nat → Except Unit P)
    (verify : P → List Nat → Except Unit V)
    (getRootCa : V → List Nat)
    (pemToDer : List Nat → Except Unit (List Nat))
    (hasFmspc : V → List Nat → Bool)
    (policyBytes chainBytes : Except Unit (List Nat))
    (containsKey : V → List Nat → Bool) :
    (∀ sz pgs cfv pd cd doc vp der fm,
      config = .ok sz → pages = .ok pgs →
      extract_cfv_from_igvm pgs sz = .ok cfv →
      getFile cfv MIGTD_POLICY_FFS_GUID = .ok pd →
      getFile cfv MIGTD_POLICY_ISSUER_CHAIN_FFS_GUID = .ok cd →
      deserialize pd = .ok doc →
      verify doc cd = .ok vp →
      pemToDer (getRootCa vp) = .ok der →
      (fm = none ∨ ∃ f, fm = some f ∧ hasFmspc vp f = true) →
      (mainIgvm config pages getFile deserialize verify getRootCa pemToDer
        hasFmspc fm).1 = 0)
    ∧ (∀ sz pgs cfv pd cd doc vp der f,
      config = .ok sz → pages = .ok pgs →
      extract_cfv_from_igvm pgs sz = .ok cfv →
      getFile cfv MIGTD_POLICY_FFS_GUID = .ok pd →
      getFile cfv MIGTD_POLICY_ISSUER_CHAIN_FFS_GUID = .ok cd →
      deserialize pd = .ok doc →
      verify doc cd = .ok vp →
      pemToDer (getRootCa vp) = .ok der →
      hasFmspc vp f = false →
      (mainIgvm config pages getFile deserialize verify getRootCa pemToDer
        hasFmspc (some f)).1 = 2)
    ∧ (∀ fm,
      ¬ IgvmSuccess config pages getFile deserialize verify getRootCa pemToDer →
      (mainIgvm config pages getFile deserialize verify getRootCa pemToDer
        hasFmspc fm).1 = 1)
    ∧ (∀ pb cb doc vp fm,
      policyBytes = .ok pb → chainBytes = .ok cb →
      deserialize pb = .ok doc → verify doc cb = .ok vp →
      (fm = none ∨ ∃ f, fm = some f ∧ containsKey vp f = true) →
      mainPolicy policyBytes chainBytes deserialize verify containsKey fm = 0)
    ∧ (∀ pb cb doc vp f,
      policyBytes = .ok pb → chainBytes = .ok cb →
      deserialize pb = .ok doc → verify doc cb = .ok vp →
      containsKey vp f = false →
      mainPolicy policyBytes chainBytes deserialize verify containsKey (some f) = 2)
    ∧ (∀ fm,
      ¬ PolicySuccess policyBytes chainBytes deserialize verify →
      mainPolicy policyBytes chainBytes deserialize verify containsKey fm = 1) := by
  refine ⟨?_, ?_, ?_, ?_, ?_, ?_⟩
  · intro sz pgs cfv pd cd doc vp der fm hc hp he hpd hcd hd hv hpem hfm
    rcases hfm with rfl | ⟨f, rfl, hf⟩
    · simp [mainIgvm, hc, hp, he, hpd, hcd, hd, hv, hpem]
    · simp [mainIgvm, hc, hp, he, hpd, hcd, hd, hv, hpem, hf]
  · intro sz pgs cfv pd cd doc vp der f hc hp he hpd hcd hd hv hpem hf
    simp [mainIgvm, hc, hp, he, hpd, hcd, hd, hv, hpem, hf]
  · intro fm hns
    cases hc : config with
    | error e => simp [mainIgvm, hc]
    | ok sz =>
      cases hp : pages with
      | error e => simp [mainIgvm, hc, hp]
      | ok pgs =>
        cases he : extract_cfv_from_igvm pgs sz with
        | error e => simp [mainIgvm, hc, hp, he]
        | ok cfv =>
          cases hpd : getFile cfv MIGTD_POLICY_FFS_GUID with
          | error e => simp [mainIgvm, hc, hp, he, hpd]
          | ok pd =>
            cases hcd : getFile cfv MIGTD_POLICY_ISSUER_CHAIN_FFS_GUID with
            | error e => simp [mainIgvm, hc, hp, he, hpd, hcd]
            | ok cd =>
              cases hd : deserialize pd with
              | error e => simp [mainIgvm, hc, hp, he, hpd, hcd, hd]
              | ok doc =>
                cases hv : verify doc cd with
                | error e => simp [mainIgvm, hc, hp, he, hpd, hcd, hd, hv]
                | ok vp =>
                  cases hpem : pemToDer (getRootCa vp) with
                  | error e => simp [mainIgvm, hc, hp, he, hpd, hcd, hd, hv, hpem]
                  | ok der =>
                    exact absurd
                      ⟨sz, pgs, cfv, pd, cd, doc, vp, der,
                        hc, hp, he, hpd, hcd, hd, hv, hpem⟩ hns
  · intro pb cb doc vp fm hpb hcb hd hv hfm
    rcases hfm with rfl | ⟨f, rfl, hf⟩
    · simp [mainPolicy, hpb, hcb, hd, hv]
    · simp [mainPolicy, hpb, hcb, hd, hv, hf]
  · intro pb cb doc vp f hpb hcb hd hv hf
    simp [mainPolicy, hpb, hcb, hd, hv, hf]
  · intro fm hns
    cases hpb : policyBytes with
    | error e => simp [mainPolicy, hpb]
    | ok pb =>
      cases hcb : chainBytes with
      | error e => simp [mainPolicy, hpb, hcb]
      | ok cb =>
        cases hd : deserialize pb with
        | error e => simp [mainPolicy, hpb, hcb, hd]
        | ok doc =>
          cases hv : verify doc cb with
          | error e => simp [mainPolicy, hpb, hcb, hd, hv]
          | ok vp =>
            exact absurd ⟨pb, cb, doc, vp, hpb, hcb, hd, hv⟩ hns

/-- C7 witness: concrete fully-successful runs of both tools without a
platform-identifier filter exit with code 0. -/
theorem cli_exit_codes_witness :
    (@mainIgvm Unit Unit (.ok 1) (.ok [(CFV_GPA, [0])]) (fun _ _ => .ok [7])
      (fun _ => .ok ()) (fun _ _ => .ok ()) (fun _ => []) (fun _ => .ok [])
      (fun _ _ => true) none).1 = 0 ∧
    @mainPolicy Unit Unit (.ok [1]) (.ok [2]) (fun _ => .ok ())
      (fun _ _ => .ok ()) (fun _ _ => true) none = 0 := by
  constructor
  · exact (@cli_exit_codes Unit Unit (.ok 1) (.ok [(CFV_GPA, [0])])
      (fun _ _ => .ok [7]) (fun _ => .ok ()) (fun _ _ => .ok ()) (fun _ => [])
      (fun _ => .ok []) (fun _ _ => true) (.ok [1]) (.ok [2])
      (fun _ _ => true)).1 1 [(CFV_GPA, [0])] [0] [7] [7] () () [] none
      rfl rfl rfl rfl rfl rfl rfl rfl (Or.inl rfl)
  · exact (@cli_exit_codes Unit Unit (.ok 1) (.ok [(CFV_GPA, [0])])
      (fun _ _ => .ok [7]) (fun _ => .ok ()) (fun _ _ => .ok ()) (fun _ => [])
      (fun _ => .ok []) (fun _ _ => true) (.ok [1]) (.ok [2])
      (fun _ _ => true)).2.2.2.1 [1] [2] () () none rfl rfl rfl rfl (Or.inl rfl)

/-- C8: in the IGVM verifier's pipeline, deserialization is always
performed before verification — every run whose trace contains a verify
call starts with the deserialization call, and the verified document is
that call's output; the verify call receives exactly the issuer-chain
payload extracted (by the issuer-chain GUID) from the same volume
`cfv` whose policy payload is deserialized; and on successful
verification the trace contains exactly one PEM-to-DER conversion, of
the collateral's root certificate. -/
theorem pipeline_order {P V : Type}
    (config : Except Unit Nat) (pages : Except Unit (List PageRecord))
    (getFile : List Nat → List Nat → Except Unit (List Nat))
    (deserialize : List Nat → Except Unit P)
    (verify : P → List Nat → Except Unit V)
    (getRootCa : V → List Nat)
    (pemToDer : List Nat → Except Unit (List Nat))
    (hasFmspc : V → List Nat → Bool) :
    (∀ sz pgs cfv pd cd doc vp fm,
      config = .ok sz → pages = .ok pgs →
      extract_cfv_from_igvm pgs sz = .ok cfv →
      getFile cfv MIGTD_POLICY_FFS_GUID = .ok pd →
      getFile cfv MIGTD_POLICY_ISSUER_CHAIN_FFS_GUID = .ok cd →
      deserialize pd = .ok doc →
      verify doc cd = .ok vp →
      (mainIgvm config pages getFile deserialize verify getRootCa pemToDer
          hasFmspc fm).2 =
        [PipelineEvent.deserializeEv pd, PipelineEvent.verifyEv doc cd,
         PipelineEvent.pemToDerEv (getRootCa vp)]
      ∧ ((mainIgvm config pages getFile deserialize verify getRootCa pemToDer
          hasFmspc fm).2.countP (fun e =>
            match e with
            | PipelineEvent.pemToDerEv _ => true
            | _ => false)) = 1)
    ∧ (∀ fm doc c,
      PipelineEvent.verifyEv doc c ∈
        (mainIgvm config pages getFile deserialize verify getRootCa pemToDer
          hasFmspc fm).2 →
      ∃ pb,
        (mainIgvm config pages getFile deserialize verify getRootCa pemToDer
          hasFmspc fm).2.head? = some (PipelineEvent.deserializeEv pb)
        ∧ deserialize pb = .ok doc) := by
  constructor
  · intro sz pgs cfv pd cd doc vp fm hc hp he hpd hcd hd hv
    have htr : (mainIgvm config pages getFile deserialize verify getRootCa
        pemToDer hasFmspc fm).2 =
        [PipelineEvent.deserializeEv pd, PipelineEvent.verifyEv doc cd,
         PipelineEvent.pemToDerEv (getRootCa vp)] := by
      simp only [mainIgvm, hc, hp, he, hpd, hcd, hd, hv]
      cases hpem : pemToDer (getRootCa vp) <;> rfl
    refine ⟨htr, ?_⟩
    rw [htr]
    rfl
  · intro fm doc c hmem
    cases hc : config with
    | error e => simp [mainIgvm, hc] at hmem
    | ok sz =>
      cases hp : pages with
      | error e => simp [mainIgvm, hc, hp] at hmem
      | ok pgs =>
        cases he : extract_cfv_from_igvm pgs sz with
        | error e => simp [mainIgvm, hc, hp, he] at hmem
        | ok cfv =>
          cases hpd : getFile cfv MIGTD_POLICY_FFS_GUID with
          | error e => simp [mainIgvm, hc, hp, he, hpd] at hmem
          | ok pd =>
            cases hcd : getFile cfv MIGTD_POLICY_ISSUER_CHAIN_FFS_GUID with
            | error e => simp [mainIgvm, hc, hp, he, hpd, hcd] at hmem
            | ok cd =>
              cases hd : deserialize pd with
              | error e => simp [mainIgvm, hc, hp, he, hpd, hcd, hd] at hmem
              | ok doc0 =>
                cases hv : verify doc0 cd with
                | error e =>
                  simp [mainIgvm, hc, hp, he, hpd, hcd, hd, hv] at hmem
                  obtain ⟨h1, h2⟩ := hmem
                  subst h1
                  exact ⟨pd, by simp [mainIgvm, hc, hp, he, hpd, hcd, hd, hv], hd⟩
                | ok vp =>
                  cases hpem : pemToDer (getRootCa vp) with
                  | error e =>
                    simp [mainIgvm, hc, hp, he, hpd, hcd, hd, hv, hpem] at hmem
                    obtain ⟨h1, h2⟩ := hmem
                    subst h1
                    exact ⟨pd,
                      by simp [mainIgvm, hc, hp, he, hpd, hcd, hd, hv, hpem], hd⟩
                  | ok der =>
                    simp [mainIgvm, hc, hp, he, hpd, hcd, hd, hv, hpem] at hmem
                    obtain ⟨h1, h2⟩ := hmem
                    subst h1
                    exact ⟨pd,
                      by simp [mainIgvm, hc, hp, he, hpd, hcd, hd, hv, hpem], hd⟩

/-- C8 witness: the trace of a concrete fully-successful run is exactly
the deserialize, verify, PEM-to-DER sequence. -/
theorem pipeline_order_witness :
    (@mainIgvm Unit Unit (.ok 1) (.ok [(CFV_GPA, [0])]) (fun _ _ => .ok [7])
      (fun _ => .ok ()) (fun _ _ => .ok ()) (fun _ => []) (fun _ => .ok [])
      (fun _ _ => true) none).2 =
      [PipelineEvent.deserializeEv [7], PipelineEvent.verifyEv () [7],
       PipelineEvent.pemToDerEv []] :=
  ((@pipeline_order Unit Unit (.ok 1) (.ok [(CFV_GPA, [0])]) (fun _ _ => .ok [7])
      (fun _ => .ok ()) (fun _ _ => .ok ()) (fun _ => []) (fun _ => .ok [])
      (fun _ _ => true)).1 1 [(CFV_GPA, [0])] [0] [7] [7] () () none
      rfl rfl rfl rfl rfl rfl rfl).1

end MigTD
